import Mathlib

/-!
Verification of the zero-sized-element (ZST) backend of the
`concurrent-queue` crate (`src/zst.rs`), as a shallow sequential
embedding: each operation is a pure function from the queue state to a
result paired with the new state.  The atomic word of the source is the
encoding of `State` given by `State.toUsize`; in the absence of
contention every compare-exchange succeeds on its first attempt, so the
CAS loops of `push` and `pop` collapse to one decode/branch/encode step.
`usize` is modelled as `Nat` with the 64-bit maximum made explicit where
the source mentions it (`core::usize::MAX`).
-/

namespace ConcurrentQueue

/-- `const CLOSED: usize = 1 << 0` -/
def CLOSED : Nat := 1 <<< 0

/-- `const REFCOUNT_SHIFT: usize = 1` -/
def REFCOUNT_SHIFT : Nat := 1

/-- `core::usize::MAX` on a 64-bit target. -/
def USIZE_MAX : Nat := 2 ^ 64 - 1

/-- The state of the ZST queue (`struct State` in `src/zst.rs`):
the number of items and whether the queue is closed. -/
structure State where
  count : Nat
  closed : Bool
  deriving DecidableEq, Repr

/-- `impl From<usize> for State`: decode the atomic word. -/
def State.ofUsize (w : Nat) : State :=
  { count := w >>> REFCOUNT_SHIFT
    closed := w &&& CLOSED != 0 }

/-- `impl From<State> for usize`: encode into the atomic word
(`usize` arithmetic wraps, hence the reduction modulo `2 ^ 64`). -/
def State.toUsize (s : State) : Nat :=
  (s.count <<< REFCOUNT_SHIFT ||| (if s.closed then CLOSED else 0)) % 2 ^ 64

/-- The ZST queue (`struct Zst<T>`): the atomic state word, decoded, and
the immutable capacity.  The source stores the capacity as
`Option<NonZeroUsize>`; `Zst.new` only ever produces positive values. -/
structure Zst where
  state : State
  capacity : Option Nat
  deriving DecidableEq, Repr

/-- `PushError<T>`: the rejected value is carried back to the caller. -/
inductive PushError (α : Type) where
  | Full (v : α)
  | Closed (v : α)
  deriving DecidableEq, Repr

/-- `PopError`. -/
inductive PopError where
  | Empty
  | Closed
  deriving DecidableEq, Repr

/-- `Zst::new(capacity)`.  The `assert_eq!(mem::size_of::<T>(), 0)` is a
static property of the element type and is not modelled; the
`NonZeroUsize` panic on a zero capacity becomes `Except.error` with the
panic message. -/
def Zst.new (capacity : Option Nat) : Except String Zst :=
  match capacity with
  | some c =>
    if c = 0 then Except.error "capacity must be positive"
    else Except.ok { state := { count := 0, closed := false }, capacity := some c }
  | none => Except.ok { state := { count := 0, closed := false }, capacity := none }

/-- `Zst::push(value)`.  Mirrors the body of the CAS loop: closed check,
capacity check, increment, overflow guard; `mem::forget(value)` on
success means the value is simply not used further. -/
def Zst.push (q : Zst) (v : α) : Except (PushError α) Unit × Zst :=
  let state := q.state
  -- If we are closed, error out.
  if state.closed then
    (Except.error (PushError.Closed v), q)
  -- If we have a capacity, check if we are full.
  else if q.capacity.any (fun capacity => decide (capacity ≤ state.count)) then
    (Except.error (PushError.Full v), q)
  else
    -- Otherwise, increase the count.
    let new_state : State := { state with count := state.count + 1 }
    -- Avoid a potential overflow.
    if USIZE_MAX >>> REFCOUNT_SHIFT ≤ new_state.count then
      (Except.error (PushError.Full v), q)
    else
      (Except.ok (), { q with state := new_state })

/-- `Zst::pop()`.  A ZST has no bits, so the `instance()` returned on
success is modelled by `()`. -/
def Zst.pop (q : Zst) : Except PopError Unit × Zst :=
  let state := q.state
  -- If we are empty, error out.
  if state.count = 0 then
    if state.closed then (Except.error PopError.Closed, q)
    else (Except.error PopError.Empty, q)
  else
    -- Otherwise, decrease the count.
    (Except.ok (), { q with state := { state with count := state.count - 1 } })

/-- `Zst::close()`: `fetch_or(CLOSED)` on the state word sets the closed
bit and leaves the count untouched; the call returns `true` iff the
queue was previously open. -/
def Zst.close (q : Zst) : Bool × Zst :=
  (!q.state.closed, { q with state := { q.state with closed := true } })

/-- `Zst::is_empty()`. -/
def Zst.is_empty (q : Zst) : Bool :=
  q.state.count == 0

/-- `Zst::is_full()`. -/
def Zst.is_full (q : Zst) : Bool :=
  match q.capacity with
  | some capacity => decide (capacity ≤ q.state.count)
  | none => false

/-- `Zst::len()`. -/
def Zst.len (q : Zst) : Nat :=
  q.state.count

/-- `Zst::capacity()`. -/
def Zst.capacityFn (q : Zst) : Option Nat :=
  q.capacity

/-- `Zst::is_closed()`. -/
def Zst.is_closed (q : Zst) : Bool :=
  q.state.closed

/-- The loop of `impl Drop for Zst`: `for _ in 0..count` drops one
freshly synthesised instance per iteration; `dropLoop n` counts the
destructor invocations the loop performs for `count = n`. -/
def dropLoop : Nat → Nat
  | 0 => 0
  | n + 1 => dropLoop n + 1

/-- Number of element destructors run by `impl Drop for Zst`. -/
def Zst.dropCalls (q : Zst) : Nat :=
  dropLoop q.state.count

/-- A mutating operation applied to the queue (the read-only operations
`len`, `is_empty`, `is_full`, `capacity`, `is_closed` do not change the
state word). -/
inductive Op where
  | push
  | pop
  | close
  deriving DecidableEq, Repr

/-- Apply one operation, keeping only the resulting state. -/
def Zst.apply (q : Zst) : Op → Zst
  | Op.push => (q.push ()).2
  | Op.pop => q.pop.2
  | Op.close => q.close.2

/-- Run a sequence of operations. -/
def Zst.run (q : Zst) (ops : List Op) : Zst :=
  ops.foldl Zst.apply q

/-- Count the successful pushes and the successful pops along a run:
`(q.trace ops).1` is the number of `push` calls that returned `Ok`,
`(q.trace ops).2` the number of `pop` calls that returned `Ok`. -/
def Zst.trace (q : Zst) : List Op → Nat × Nat
  | [] => (0, 0)
  | op :: ops =>
    let here : Nat × Nat :=
      match op with
      | Op.push => match (q.push ()).1 with | Except.ok _ => (1, 0) | Except.error _ => (0, 0)
      | Op.pop => match q.pop.1 with | Except.ok _ => (0, 1) | Except.error _ => (0, 0)
      | Op.close => (0, 0)
    let rest := (q.apply op).trace ops
    (here.1 + rest.1, here.2 + rest.2)

/-- All of `n` consecutive pushes return `Ok`. -/
def Zst.pushN (q : Zst) : Nat → Bool
  | 0 => true
  | n + 1 =>
    match q.push () with
    | (Except.ok _, q') => q'.pushN n
    | (Except.error _, _) => false

/-! ## Case-analysis lemmas for the operations -/

/-- `push` either succeeds — incrementing the count, with the closed
flag clear, the count strictly below any capacity, and the new count
below the overflow boundary — or fails leaving the queue unchanged. -/
theorem Zst.push_elim (q : Zst) (v : α) :
    ((q.push v).1 = Except.ok () ∧
        (q.push v).2 = { q with state := { q.state with count := q.state.count + 1 } } ∧
        q.state.closed = false ∧
        (∀ c, q.capacity = some c → q.state.count < c) ∧
        q.state.count + 1 < USIZE_MAX >>> REFCOUNT_SHIFT) ∨
      ((∃ e, (q.push v).1 = Except.error e) ∧ (q.push v).2 = q) := by
  unfold Zst.push
  by_cases h1 : q.state.closed = true
  · right
    simp [h1]
  · by_cases h2 : q.capacity.any (fun capacity => decide (capacity ≤ q.state.count)) = true
    · right
      simp [h1, h2]
    · by_cases h3 : USIZE_MAX >>> REFCOUNT_SHIFT ≤ q.state.count + 1
      · right
        simp [h1, h2, h3]
      · left
        refine ⟨by simp [h1, h2, h3], by simp [h1, h2, h3],
          by simpa using h1, ?_, by omega⟩
        intro c hc
        rw [hc] at h2
        simp [Option.any] at h2
        omega

/-- `pop` either succeeds — the count was positive and is decremented —
or fails leaving the queue unchanged. -/
theorem Zst.pop_elim (q : Zst) :
    (0 < q.state.count ∧
        q.pop = (Except.ok (), { q with state := { q.state with count := q.state.count - 1 } })) ∨
      ((∃ e, q.pop.1 = Except.error e) ∧ q.pop.2 = q) := by
  unfold Zst.pop
  by_cases h1 : q.state.count = 0
  · right
    by_cases h2 : q.state.closed = true <;> simp [h1, h2]
  · left
    simp [h1]
    omega

/-- No operation changes the capacity field. -/
theorem Zst.apply_capacity (q : Zst) (op : Op) : (q.apply op).capacity = q.capacity := by
  cases op with
  | push =>
    rcases q.push_elim () with ⟨-, h, -⟩ | ⟨-, h⟩ <;> simp [Zst.apply, h]
  | pop =>
    rcases q.pop_elim with ⟨-, h⟩ | ⟨-, h⟩ <;> simp [Zst.apply, h]
  | close => simp [Zst.apply, Zst.close]

/-- No operation clears the closed flag. -/
theorem Zst.apply_closed (q : Zst) (op : Op) (h : q.state.closed = true) :
    (q.apply op).state.closed = true := by
  cases op with
  | push =>
    rcases q.push_elim () with ⟨-, h2, -⟩ | ⟨-, h2⟩ <;> simp [Zst.apply, h2, h]
  | pop =>
    rcases q.pop_elim with ⟨-, h2⟩ | ⟨-, h2⟩ <;> simp [Zst.apply, h2, h]
  | close => simp [Zst.apply, Zst.close]

/-- A run of operations never clears the closed flag. -/
theorem Zst.run_closed (ops : List Op) (q : Zst) (h : q.state.closed = true) :
    (q.run ops).state.closed = true := by
  induction ops generalizing q with
  | nil => exact h
  | cons op ops ih => exact ih (q.apply op) (q.apply_closed op h)

/-- A run of operations keeps the capacity field. -/
theorem Zst.run_capacity (ops : List Op) (q : Zst) :
    (q.run ops).capacity = q.capacity := by
  induction ops generalizing q with
  | nil => rfl
  | cons op ops ih => rw [Zst.run, List.foldl_cons, ← Zst.run, ih, q.apply_capacity]

/-- Each operation keeps the count within any set capacity. -/
theorem Zst.apply_capBound (q : Zst) (op : Op)
    (h : ∀ c, q.capacity = some c → q.state.count ≤ c) :
    ∀ c, (q.apply op).capacity = some c → (q.apply op).state.count ≤ c := by
  intro c hc
  rw [q.apply_capacity] at hc
  cases op with
  | push =>
    rcases q.push_elim () with ⟨-, h2, -, h3, -⟩ | ⟨-, h2⟩
    · have := h3 c hc
      simp [Zst.apply, h2]
      omega
    · simp [Zst.apply, h2]
      exact h c hc
  | pop =>
    rcases q.pop_elim with ⟨-, h2⟩ | ⟨-, h2⟩
    · have := h c hc
      simp [Zst.apply, h2]
      omega
    · simp [Zst.apply, h2]
      exact h c hc
  | close =>
    simp [Zst.apply, Zst.close]
    exact h c hc

/-- A run of operations keeps the count within any set capacity. -/
theorem Zst.run_capBound (ops : List Op) (q : Zst)
    (h : ∀ c, q.capacity = some c → q.state.count ≤ c) :
    ∀ c, (q.run ops).capacity = some c → (q.run ops).state.count ≤ c := by
  induction ops generalizing q with
  | nil => exact h
  | cons op ops ih => exact ih (q.apply op) (q.apply_capBound op h)

/-- `dropLoop` performs one destructor invocation per unit of the count. -/
theorem dropLoop_eq (n : Nat) : dropLoop n = n := by
  induction n with
  | zero => rfl
  | succ n ih => rw [dropLoop, ih]

/-- Count bookkeeping of a run: the final count plus the successful pops
equals the initial count plus the successful pushes. -/
theorem Zst.trace_balance (ops : List Op) (q : Zst) :
    (q.run ops).state.count + (q.trace ops).2 = q.state.count + (q.trace ops).1 := by
  induction ops generalizing q with
  | nil => rfl
  | cons op ops ih =>
    cases op with
    | push =>
      rcases q.push_elim () with ⟨h1, h2, -⟩ | ⟨⟨e, h1⟩, h2⟩
      · have := ih (q.apply Op.push)
        simp [Zst.trace, Zst.run, Zst.apply, h1, h2] at *
        omega
      · have := ih (q.apply Op.push)
        simp [Zst.trace, Zst.run, Zst.apply, h1, h2] at *
        omega
    | pop =>
      rcases q.pop_elim with ⟨hpos, h1⟩ | ⟨⟨e, h1⟩, h2⟩
      · have := ih (q.apply Op.pop)
        simp [Zst.trace, Zst.run, Zst.apply, h1] at *
        omega
      · have := ih (q.apply Op.pop)
        simp [Zst.trace, Zst.run, Zst.apply, h1, h2] at *
        omega
    | close =>
      have := ih (q.apply Op.close)
      simp [Zst.trace, Zst.run, Zst.apply, Zst.close] at *
      omega

/-! ## Claim theorems -/

/-- C1: on the zero-sized backend, `pop` succeeds — returning an
instance and decrementing the count by one — whenever the count is
positive, even when the queue is closed; it returns `PopError::Closed`
iff the count is zero and the queue is closed, and `PopError::Empty`
iff the count is zero and the queue is not closed. -/
theorem zst_pop_spec (q : Zst) :
    (0 < q.state.count →
        q.pop = (Except.ok (), { q with state := { q.state with count := q.state.count - 1 } })) ∧
      (q.pop.1 = Except.error PopError.Closed ↔ q.state.count = 0 ∧ q.state.closed = true) ∧
      (q.pop.1 = Except.error PopError.Empty ↔ q.state.count = 0 ∧ q.state.closed = false) := by
  unfold Zst.pop
  by_cases h1 : q.state.count = 0
  · by_cases h2 : q.state.closed = true <;> simp [h1, h2]
  · simp [h1]

/-- Witness for C1: popping a closed queue holding one item succeeds and
leaves a closed empty queue. -/
theorem zst_pop_spec_witness :
    Zst.pop { state := { count := 1, closed := true }, capacity := none } =
      (Except.ok (), { state := { count := 0, closed := true }, capacity := none }) :=
  (zst_pop_spec { state := { count := 1, closed := true }, capacity := none }).1 (by decide)

/-- C2: on a closed queue, `push v` returns `PushError::Closed(v)` with
the original value intact and the queue unchanged — in particular it
never returns `Ok` or `Full`, even when the count has reached the
capacity, because the closed check precedes the full check. -/
theorem zst_push_closed (q : Zst) (v : α) (h : q.is_closed = true) :
    q.push v = (Except.error (PushError.Closed v), q) := by
  unfold Zst.push
  simp [Zst.is_closed] at h
  simp [h]

/-- Witness for C2: pushing onto a closed queue whose count equals its
capacity yields `Closed`, not `Full`. -/
theorem zst_push_closed_witness :
    Zst.push { state := { count := 1, closed := true }, capacity := some 1 } (37 : Nat) =
      (Except.error (PushError.Closed 37),
        { state := { count := 1, closed := true }, capacity := some 1 }) :=
  zst_push_closed { state := { count := 1, closed := true }, capacity := some 1 } 37 (by decide)

/-- C3: `close` returns `true` iff the queue was not closed before the
call; immediately after a close `is_closed` is `true` and it remains
`true` after every subsequent run of mutating operations (the read-only
operations `len`, `is_empty`, `is_full`, `capacity` do not touch the
state word at all); a second `close` returns `false` — nothing reopens
the queue. -/
theorem zst_close_spec (q : Zst) (ops : List Op) :
    q.close.1 = !q.is_closed ∧
      (q.close.2.run ops).is_closed = true ∧
      q.close.2.close.1 = false := by
  refine ⟨rfl, ?_, rfl⟩
  exact Zst.run_closed ops q.close.2 rfl

/-- C9: constructing with capacity 0 is a fatal precondition failure
with the message "capacity must be positive"; any `n ≥ 1` succeeds and
`capacity()` then returns `Some n`; construction without a capacity
yields `capacity() == None`. -/
theorem zst_new_spec :
    Zst.new (some 0) = Except.error "capacity must be positive" ∧
      (∀ n, 1 ≤ n → ∃ q, Zst.new (some n) = Except.ok q ∧ q.capacityFn = some n) ∧
      (∃ q, Zst.new none = Except.ok q ∧ q.capacityFn = none) := by
  refine ⟨rfl, ?_, ⟨_, rfl, rfl⟩⟩
  intro n hn
  refine ⟨{ state := { count := 0, closed := false }, capacity := some n }, ?_, rfl⟩
  unfold Zst.new
  simp
  omega

/-- Witness for C9: construction at capacity 3 succeeds and reports
capacity 3. -/
theorem zst_new_spec_witness :
    ∃ q, Zst.new (some 3) = Except.ok q ∧ q.capacityFn = some 3 :=
  zst_new_spec.2.1 3 (by decide)

/-- C10: whenever `push` or `pop` returns an error, the queue value is
unchanged — hence `len`, `is_empty`, `is_full`, `is_closed` and
`capacity`, all functions of that value, return the same results after
the failed call as before it. -/
theorem zst_error_preserves_state (q : Zst) (v : α) :
    (∀ e, (q.push v).1 = Except.error e → (q.push v).2 = q) ∧
      (∀ e, q.pop.1 = Except.error e → q.pop.2 = q) := by
  constructor
  · intro e he
    rcases q.push_elim v with ⟨h1, -⟩ | ⟨-, h2⟩
    · rw [h1] at he
      exact absurd he (by simp)
    · exact h2
  · intro e he
    rcases q.pop_elim with ⟨-, h1⟩ | ⟨-, h2⟩
    · rw [h1] at he
      exact absurd he (by simp)
    · exact h2

/-- Witness for C10: a failed push and a failed pop on a closed empty
queue leave the queue unchanged. -/
theorem zst_error_preserves_state_witness :
    (Zst.push { state := { count := 0, closed := true }, capacity := none } ()).2 =
        { state := { count := 0, closed := true }, capacity := none } ∧
      (Zst.pop { state := { count := 0, closed := true }, capacity := none }).2 =
        { state := { count := 0, closed := true }, capacity := none } :=
  ⟨(zst_error_preserves_state { state := { count := 0, closed := true }, capacity := none } ()).1
      (PushError.Closed ()) rfl,
    (zst_error_preserves_state { state := { count := 0, closed := true }, capacity := none } ()).2
      PopError.Closed rfl⟩

/-- C5: at every state reachable from a fresh queue by push, pop and
close: `len() ≤ capacity` whenever a capacity is set (and `0 ≤ len()`
holds because the count is a natural number); `is_empty()` iff
`len() == 0`; and `is_full()` iff `capacity() == Some(len())` — in
particular `is_full()` is always `false` without a capacity. -/
theorem zst_len_inv (cap : Option Nat) (ops : List Op) :
    let q := Zst.run { state := { count := 0, closed := false }, capacity := cap } ops
    (∀ c, cap = some c → q.len ≤ c) ∧
      (q.is_empty = true ↔ q.len = 0) ∧
      (q.is_full = true ↔ q.capacityFn = some q.len) := by
  intro q
  have hcap : q.capacity = cap :=
    Zst.run_capacity ops { state := { count := 0, closed := false }, capacity := cap }
  have hbound : ∀ c, q.capacity = some c → q.state.count ≤ c :=
    Zst.run_capBound ops { state := { count := 0, closed := false }, capacity := cap }
      (fun c _ => Nat.zero_le c)
  refine ⟨fun c hc => hbound c (by rw [hcap, hc]), by simp [Zst.is_empty, Zst.len], ?_⟩
  rcases hcapq : q.capacity with - | c
  · simp [Zst.is_full, Zst.capacityFn, hcapq]
  · have := hbound c hcapq
    simp [Zst.is_full, Zst.capacityFn, hcapq, Zst.len]
    omega

/-- Witness for C5: one push on a fresh queue of capacity 1 reaches a
state with the length within the capacity that reports full. -/
theorem zst_len_inv_witness :
    (Zst.run { state := { count := 0, closed := false }, capacity := some 1 } [Op.push]).len ≤ 1 ∧
      ((Zst.run { state := { count := 0, closed := false }, capacity := some 1 }
            [Op.push]).is_full = true ↔
        (Zst.run { state := { count := 0, closed := false }, capacity := some 1 }
            [Op.push]).capacityFn =
          some (Zst.run { state := { count := 0, closed := false }, capacity := some 1 }
            [Op.push]).len) :=
  ⟨(zst_len_inv (some 1) [Op.push]).1 1 rfl, (zst_len_inv (some 1) [Op.push]).2.2⟩

/-- C8: when a queue holding `count` items is dropped, the element
destructor runs exactly `count` times, where `count` is `len()` at
destruction and equals the number of successful pushes minus the number
of successful pops of the run that produced the state. -/
theorem zst_drop_count (cap : Option Nat) (ops : List Op) :
    let q0 : Zst := { state := { count := 0, closed := false }, capacity := cap }
    (q0.trace ops).2 ≤ (q0.trace ops).1 ∧
      (q0.run ops).dropCalls = (q0.trace ops).1 - (q0.trace ops).2 ∧
      (q0.run ops).dropCalls = (q0.run ops).len := by
  intro q0
  have h := Zst.trace_balance ops q0
  have h0 : q0.state.count = 0 := rfl
  rw [h0] at h
  refine ⟨by omega, ?_, ?_⟩
  · simp only [Zst.dropCalls, dropLoop_eq, Zst.len]
    omega
  · simp only [Zst.dropCalls, dropLoop_eq, Zst.len]

/-- Witness for C8: after two successful pushes and one successful pop,
dropping the queue runs the destructor once. -/
theorem zst_drop_count_witness :
    (Zst.run { state := { count := 0, closed := false }, capacity := none }
          [Op.push, Op.push, Op.pop]).dropCalls =
        (Zst.trace { state := { count := 0, closed := false }, capacity := none }
            [Op.push, Op.push, Op.pop]).1 -
          (Zst.trace { state := { count := 0, closed := false }, capacity := none }
            [Op.push, Op.push, Op.pop]).2 :=
  (zst_drop_count none [Op.push, Op.push, Op.pop]).2.1

/-- Evaluation of `push` on an open bounded queue: it succeeds exactly
when the count is below the capacity and the incremented count is below
the overflow boundary; otherwise it fails with `Full`. -/
theorem Zst.push_open_bounded (c k : Nat) (v : α) :
    Zst.push { state := { count := k, closed := false }, capacity := some c } v =
      if k < c ∧ k + 1 < USIZE_MAX >>> REFCOUNT_SHIFT then
        (Except.ok (), { state := { count := k + 1, closed := false }, capacity := some c })
      else
        (Except.error (PushError.Full v),
          { state := { count := k, closed := false }, capacity := some c }) := by
  by_cases h2 : c ≤ k
  · rw [if_neg (by omega : ¬(k < c ∧ k + 1 < USIZE_MAX >>> REFCOUNT_SHIFT))]
    unfold Zst.push
    simp [Option.any, h2]
  · by_cases h3 : USIZE_MAX >>> REFCOUNT_SHIFT ≤ k + 1
    · rw [if_neg (by omega : ¬(k < c ∧ k + 1 < USIZE_MAX >>> REFCOUNT_SHIFT))]
      unfold Zst.push
      simp [Option.any, h2, h3]
    · rw [if_pos (show k < c ∧ k + 1 < USIZE_MAX >>> REFCOUNT_SHIFT by omega)]
      unfold Zst.push
      simp [Option.any, h2, h3]

/-- Evaluation of `push` on an open unbounded queue: it succeeds exactly
when the incremented count is below the overflow boundary; otherwise it
fails with `Full`. -/
theorem Zst.push_open_unbounded (k : Nat) (v : α) :
    Zst.push { state := { count := k, closed := false }, capacity := none } v =
      if k + 1 < USIZE_MAX >>> REFCOUNT_SHIFT then
        (Except.ok (), { state := { count := k + 1, closed := false }, capacity := none })
      else
        (Except.error (PushError.Full v),
          { state := { count := k, closed := false }, capacity := none }) := by
  by_cases h3 : USIZE_MAX >>> REFCOUNT_SHIFT ≤ k + 1
  · rw [if_neg (by omega : ¬(k + 1 < USIZE_MAX >>> REFCOUNT_SHIFT))]
    unfold Zst.push
    simp [Option.any, h3]
  · rw [if_pos (show k + 1 < USIZE_MAX >>> REFCOUNT_SHIFT by omega)]
    unfold Zst.push
    simp [Option.any, h3]

/-- On an open bounded queue holding `k` items, `n` consecutive pushes
all return `Ok` exactly when `k + n` fits under both the capacity and
the overflow boundary. -/
theorem Zst.pushN_closedForm (c : Nat) :
    ∀ n k,
      (Zst.pushN { state := { count := k, closed := false }, capacity := some c } n = true ↔
        (n = 0 ∨ (k + n ≤ c ∧ k + n < USIZE_MAX >>> REFCOUNT_SHIFT))) := by
  intro n
  induction n with
  | zero =>
    intro k
    simp [Zst.pushN]
  | succ n ih =>
    intro k
    rw [Zst.pushN, Zst.push_open_bounded]
    by_cases h1 : k < c ∧ k + 1 < USIZE_MAX >>> REFCOUNT_SHIFT
    · rw [if_pos h1]
      simp only []
      rw [ih (k + 1)]
      constructor
      · rintro (h | h) <;> [right; right] <;> omega
      · rintro (h | h)
        · omega
        · rcases Nat.eq_zero_or_pos n with hn | hn
          · left
            exact hn
          · right
            omega
    · rw [if_neg h1]
      simp only []
      constructor
      · intro h
        exact absurd h (by simp)
      · rintro (h | h) <;> omega

/-- Running `n` pushes on an open bounded queue holding `k` items, when
`k + n` fits under the capacity and the overflow boundary, yields the
queue holding `k + n` items. -/
theorem Zst.run_pushes (c : Nat) :
    ∀ n k, k + n ≤ c → k + n < USIZE_MAX >>> REFCOUNT_SHIFT →
      Zst.run { state := { count := k, closed := false }, capacity := some c }
          (List.replicate n Op.push) =
        { state := { count := k + n, closed := false }, capacity := some c } := by
  intro n
  induction n with
  | zero =>
    intro k h1 h2
    rfl
  | succ n ih =>
    intro k h1 h2
    rw [List.replicate_succ, Zst.run, List.foldl_cons]
    have happ :
        Zst.apply { state := { count := k, closed := false }, capacity := some c } Op.push =
          { state := { count := k + 1, closed := false }, capacity := some c } := by
      rw [Zst.apply, Zst.push_open_bounded, if_pos ⟨by omega, by omega⟩]
    rw [happ, ← Zst.run]
    have := ih (k + 1) (by omega) (by omega)
    rw [this]
    have : k + 1 + n = k + (n + 1) := by omega
    rw [this]

/-- Running `n` pushes on an open unbounded queue holding `k` items,
when `k + n` is below the overflow boundary, yields the queue holding
`k + n` items. -/
theorem Zst.run_pushes_unbounded :
    ∀ n k, k + n < USIZE_MAX >>> REFCOUNT_SHIFT →
      Zst.run { state := { count := k, closed := false }, capacity := none }
          (List.replicate n Op.push) =
        { state := { count := k + n, closed := false }, capacity := none } := by
  intro n
  induction n with
  | zero =>
    intro k h2
    rfl
  | succ n ih =>
    intro k h2
    rw [List.replicate_succ, Zst.run, List.foldl_cons]
    have happ :
        Zst.apply { state := { count := k, closed := false }, capacity := none } Op.push =
          { state := { count := k + 1, closed := false }, capacity := none } := by
      rw [Zst.apply, Zst.push_open_unbounded, if_pos (by omega)]
    rw [happ, ← Zst.run]
    have := ih (k + 1) (by omega)
    rw [this]
    have : k + 1 + n = k + (n + 1) := by omega
    rw [this]

/-- The overflow boundary `usize::MAX >> REFCOUNT_SHIFT` on a 64-bit
target. -/
theorem USIZE_MAX_shift : USIZE_MAX >>> REFCOUNT_SHIFT = 2 ^ 63 - 1 := by decide

/-- C4 (amended): for a zero-sized-element queue with capacity
`1 ≤ c < usize::MAX >> 1`, not closed: from the empty state, `c`
consecutive pushes return `Ok`, the `(c+1)`-th push returns `Full`
(with the value intact, which `push` returns by construction), and
after one successful pop the next push returns `Ok` again.  The bound
`c < usize::MAX >> 1` is forced by the overflow guard in `push`: at
`c = usize::MAX >> 1` the `c`-th push already fails with `Full`. -/
theorem zst_bounded_fill_cycle (c : Nat) (hc : 1 ≤ c)
    (hB : c < USIZE_MAX >>> REFCOUNT_SHIFT) :
    Zst.pushN { state := { count := 0, closed := false }, capacity := some c } c = true ∧
      ((Zst.run { state := { count := 0, closed := false }, capacity := some c }
            (List.replicate c Op.push)).push ()).1 =
        Except.error (PushError.Full ()) ∧
      ((Zst.run { state := { count := 0, closed := false }, capacity := some c }
            (List.replicate c Op.push)).pop.2.push ()).1 = Except.ok () := by
  have hrun := Zst.run_pushes c c 0 (by omega) (by omega)
  rw [Nat.zero_add] at hrun
  refine ⟨?_, ?_, ?_⟩
  · rw [Zst.pushN_closedForm]
    right
    exact ⟨by omega, by omega⟩
  · rw [hrun, Zst.push_open_bounded,
      if_neg (by omega : ¬(c < c ∧ c + 1 < USIZE_MAX >>> REFCOUNT_SHIFT))]
  · rw [hrun]
    have hpop : Zst.pop { state := { count := c, closed := false }, capacity := some c } =
        (Except.ok (), { state := { count := c - 1, closed := false }, capacity := some c }) := by
      unfold Zst.pop
      simp [show ¬c = 0 by omega]
    rw [hpop, Zst.push_open_bounded,
      if_pos (show c - 1 < c ∧ c - 1 + 1 < USIZE_MAX >>> REFCOUNT_SHIFT by omega)]

/-- Witness for C4 (amended) at capacity 2: two pushes succeed, the
third yields `Full`, and after a pop a push succeeds. -/
theorem zst_bounded_fill_cycle_witness :
    Zst.pushN { state := { count := 0, closed := false }, capacity := some 2 } 2 = true ∧
      ((Zst.run { state := { count := 0, closed := false }, capacity := some 2 }
            (List.replicate 2 Op.push)).push ()).1 =
        Except.error (PushError.Full ()) ∧
      ((Zst.run { state := { count := 0, closed := false }, capacity := some 2 }
            (List.replicate 2 Op.push)).pop.2.push ()).1 = Except.ok () :=
  zst_bounded_fill_cycle 2 (by decide) (by decide)

/-- Counterexample to C4 as stated: at capacity `c = 2^63 - 1`
(`usize::MAX >> 1` on a 64-bit target, a legal `NonZeroUsize`), the
claim promises `c` consecutive `Ok` pushes from the empty state, but
the overflow guard makes the `c`-th push return `Full`. -/
theorem zst_bounded_fill_cycle_cex :
    1 ≤ 2 ^ 63 - 1 ∧
      Zst.pushN { state := { count := 0, closed := false }, capacity := some (2 ^ 63 - 1) }
          (2 ^ 63 - 1) = false := by
  refine ⟨by norm_num, ?_⟩
  rw [Bool.eq_false_iff, Ne, Zst.pushN_closedForm, USIZE_MAX_shift]
  rintro (h | ⟨h1, h2⟩) <;> omega

/-- C6 (amended): on a queue constructed without a capacity, `push`
returns only `Ok` or `Closed` at every state whose incremented count is
below the arithmetic overflow boundary `usize::MAX >> 1`; at the
boundary itself the overflow guard makes `push` return `Full` even
though no capacity is set. -/
theorem zst_unbounded_push (q : Zst) (v : α) (hcap : q.capacity = none)
    (hof : q.state.count + 1 < USIZE_MAX >>> REFCOUNT_SHIFT) :
    (q.push v).1 = Except.ok () ∨ (q.push v).1 = Except.error (PushError.Closed v) := by
  unfold Zst.push
  by_cases h1 : q.state.closed = true
  · right
    simp [h1]
  · left
    simp [h1, hcap, Option.any, Nat.not_le.mpr hof]

/-- Witness for C6 (amended): a push on a fresh unbounded queue is `Ok`
or `Closed` (it is in fact `Ok`). -/
theorem zst_unbounded_push_witness :
    (Zst.push { state := { count := 0, closed := false }, capacity := none } ()).1 =
        Except.ok () ∨
      (Zst.push { state := { count := 0, closed := false }, capacity := none } ()).1 =
        Except.error (PushError.Closed ()) :=
  zst_unbounded_push { state := { count := 0, closed := false }, capacity := none } () rfl
    (by decide)

/-- Counterexample to C6 as stated: on the unbounded zero-sized queue
the state with count `2^63 - 2` is reachable from a fresh queue by
`2^63 - 2` successful pushes, and there the next push returns `Full`,
which C6 says can never happen without a capacity. -/
theorem zst_unbounded_full_cex :
    ((Zst.run { state := { count := 0, closed := false }, capacity := none }
          (List.replicate (2 ^ 63 - 2) Op.push)).push ()).1 =
      Except.error (PushError.Full ()) := by
  have hrun := Zst.run_pushes_unbounded (2 ^ 63 - 2) 0 (by rw [USIZE_MAX_shift]; omega)
  rw [Nat.zero_add] at hrun
  rw [hrun, Zst.push_open_unbounded,
    if_neg (by rw [USIZE_MAX_shift]; omega :
      ¬(2 ^ 63 - 2 + 1 < USIZE_MAX >>> REFCOUNT_SHIFT))]

/-- C7 (amended): provided the queue is not closed, `push v` returns
`Full(v)` whenever the incremented count would reach the arithmetic
boundary `usize::MAX >> 1`, for every capacity setting including no
capacity — so the count never overflows into the closed bit.  When the
queue is closed the closed check fires first and the result is
`Closed(v)` instead. -/
theorem zst_push_overflow_full (q : Zst) (v : α) (hopen : q.state.closed = false)
    (hof : USIZE_MAX >>> REFCOUNT_SHIFT ≤ q.state.count + 1) :
    (q.push v).1 = Except.error (PushError.Full v) := by
  unfold Zst.push
  by_cases h2 : q.capacity.any (fun capacity => decide (capacity ≤ q.state.count)) = true
  · simp [hopen, h2]
  · simp [hopen, h2, hof]

/-- Witness for C7 (amended): on an open unbounded queue at count
`2^63 - 2` the push returns `Full`. -/
theorem zst_push_overflow_full_witness :
    (Zst.push { state := { count := 2 ^ 63 - 2, closed := false }, capacity := none } ()).1 =
      Except.error (PushError.Full ()) :=
  zst_push_overflow_full { state := { count := 2 ^ 63 - 2, closed := false }, capacity := none }
    () rfl (by decide)

/-- Counterexample to C7 as stated: the closed state with count
`2^63 - 2` is reachable (that many pushes, then a close); its
incremented count reaches the boundary, yet `push` returns `Closed`,
not `Full`, because the closed check precedes the overflow guard. -/
theorem zst_push_overflow_cex :
    Zst.run { state := { count := 0, closed := false }, capacity := none }
          (List.replicate (2 ^ 63 - 2) Op.push ++ [Op.close]) =
        { state := { count := 2 ^ 63 - 2, closed := true }, capacity := none } ∧
      USIZE_MAX >>> REFCOUNT_SHIFT ≤ 2 ^ 63 - 2 + 1 ∧
      (Zst.push { state := { count := 2 ^ 63 - 2, closed := true }, capacity := none } ()).1 =
        Except.error (PushError.Closed ()) ∧
      (Zst.push { state := { count := 2 ^ 63 - 2, closed := true }, capacity := none } ()).1 ≠
        Except.error (PushError.Full ()) := by
  have hrun := Zst.run_pushes_unbounded (2 ^ 63 - 2) 0 (by rw [USIZE_MAX_shift]; omega)
  rw [Nat.zero_add] at hrun
  refine ⟨?_, by rw [USIZE_MAX_shift]; omega, rfl, by simp [Zst.push]⟩
  rw [Zst.run] at hrun ⊢
  rw [List.foldl_append, hrun]
  rfl

end ConcurrentQueue
